import Mathlib

/-!
Verification of the asynchronous state-reconciliation subsystem of the
terraform-provider-auth0 repository: the poll-until-terminal reconciler
(`internal/wait.Until`) and its call sites in
`internal/auth0/encryptionkeymanager/resource.go`
(`removeKey`, `importWrappedKey`, `createRootKey`,
`updateEncryptionKeyManager`, `readEncryptionKeyManager`,
`deleteEncryptionKeyManager`).

Go errors are modelled by the inductive `Err`; `Option Err` plays the role
of Go's nullable `error` return (with `none` for `nil`).  A remote read
returning `(key, err)` is modelled as `Except Err EncryptionKey`.  The
side-effecting probe handed to the reconciler is modelled as a function
from the attempt index to the probe's result, so a run of the reconciler
is a pure fold over that sequence; the outcome records the number of probe
invocations and sleeps performed so that counting claims can be stated.
-/

/-- Error domain.  `notFound` is the class of errors recognised by the
`IsStatusNotFound` helper; `api` is any other management-API error;
`waitTimeout` is the dedicated timeout error returned by the reconciler on
budget exhaustion; `invalidConfig` is a configuration error produced
locally by the resource code with the given message. -/
inductive Err where
  | notFound : Err
  | api : String → Err
  | waitTimeout : Err
  | invalidConfig : String → Err
deriving DecidableEq, Repr

/-- Domain entity observed by the reconciler, after
`management.EncryptionKey`: key id, type, state, parent key id and
timestamps. -/
structure EncryptionKey where
  kid : String
  type : String
  state : String
  parentKid : String
  createdAt : String
  updatedAt : String
deriving DecidableEq, Repr

/-- The public wrapping-key material, after `management.WrappingKey`. -/
structure WrappingKey where
  publicKey : String
  algorithm : String
deriving DecidableEq, Repr

/-- Modelled from the spec: `internal/error.IsStatusNotFound` classifies a
remote error as "not found" or not ("a remote read operation
`readEntity(id) -> (Entity, Error)` classified into
\x7bsuccess, not-found, other-error\x7d"). -/
def isStatusNotFound : Err → Bool
  | Err.notFound => true
  | _ => false

/-- Outcome of one run of the reconciler: the returned error (`none` for
success), the number of invocations of the probe, and the number of sleeps
performed. -/
structure WaitOutcome where
  result : Option Err
  calls : Nat
  sleeps : Nat
deriving DecidableEq, Repr

/-- Modelled from the spec: the bounded retry loop of
`internal/wait.Until` (`waitUntil(maxAttempts, intervalMillis, check)`),
which is absent from the available sources.  Invoke `check`; if it errors,
abort immediately and propagate the error; if it reports done, return
success; otherwise sleep `intervalMillis` and retry, up to `maxAttempts`
total invocations; when the budget is exhausted without done, return the
timeout error.  `maxAttempts = 1` performs exactly one check with no
sleep.  `idx` is the index of the next probe invocation and the second
argument the remaining budget. -/
def waitUntilFrom (check : Nat → Bool × Option Err) (idx : Nat) : Nat → WaitOutcome
  | 0 => ⟨some Err.waitTimeout, 0, 0⟩
  | Nat.succ n =>
    match (check idx).2 with
    | some e => ⟨some e, 1, 0⟩
    | none =>
      if (check idx).1 then ⟨none, 1, 0⟩
      else if n = 0 then ⟨some Err.waitTimeout, 1, 0⟩
      else
        let rest := waitUntilFrom check (idx + 1) n
        ⟨rest.result, rest.calls + 1, rest.sleeps + 1⟩

/-- Modelled from the spec: `wait.Until(maxAttempts, intervalMillis,
check)`.  The sleep interval does not influence control flow; the probe is
invoked at indices `0, 1, ...` in order. -/
def waitUntil (maxAttempts : Nat) (_intervalMillis : Nat)
    (check : Nat → Bool × Option Err) : WaitOutcome :=
  waitUntilFrom check 0 maxAttempts

/-- Probe handed to the reconciler by `removeKey`
(resource.go lines 267-273): read the key by id; a read error is returned
as the probe error; on success, done exactly when the key state is
`destroyed`. -/
def removeKeyCheck (readResult : Except Err EncryptionKey) : Bool × Option Err :=
  match readResult with
  | Except.error e => (false, some e)
  | Except.ok key => (key.state == "destroyed", none)

/-- Outcome of `removeKey`: the returned error and the number of polling
reads performed. -/
structure RemoveOutcome where
  result : Option Err
  readCalls : Nat
deriving DecidableEq, Repr

/-- Key-deletion flow `removeKey` (resource.go lines 261-274): issue the
delete mutation, then wait (budget 100 attempts, 20 ms) until the key is
destroyed.  `deleteResult` is the outcome of `api.EncryptionKey.Delete`
and `reads i` the outcome of the i-th `api.EncryptionKey.Read` of the
poll. -/
def removeKey (deleteResult : Option Err)
    (reads : Nat → Except Err EncryptionKey) : RemoveOutcome :=
  match deleteResult with
  | some e => ⟨some e, 0⟩
  | none =>
    let w := waitUntil 100 20 (fun i => removeKeyCheck (reads i))
    ⟨w.result, w.calls⟩

/-- Probe handed to the reconciler by `importWrappedKey`
(resource.go lines 285-291): read the key by id; a read error is returned
as the probe error; on success, done exactly when the key state is
`active`. -/
def importWrappedKeyCheck (readResult : Except Err EncryptionKey) : Bool × Option Err :=
  match readResult with
  | Except.error e => (false, some e)
  | Except.ok key => (key.state == "active", none)

/-- Wrapped-key import flow `importWrappedKey`
(resource.go lines 276-292): issue the import mutation, then wait (budget
100 attempts, 20 ms) until the key is active. -/
def importWrappedKey (importResult : Option Err)
    (reads : Nat → Except Err EncryptionKey) : Option Err :=
  match importResult with
  | some e => some e
  | none => (waitUntil 100 20 (fun i => importWrappedKeyCheck (reads i))).result

/-- Probe handed to the reconciler by `createRootKey`
(resource.go lines 303-311): read the key by id; a not-found read error is
reported as not-yet-done with no probe error, any other read error is the
probe error, and a successful read is done. -/
def createRootKeyCheck (readResult : Except Err EncryptionKey) : Bool × Option Err :=
  match readResult with
  | Except.error e => if isStatusNotFound e then (false, none) else (false, some e)
  | Except.ok _ => (true, none)

/-- Outcome of `createRootKey`: the returned key and wrapping key or
error, the number of polling reads, and the number of calls to
`CreatePublicWrappingKey`. -/
structure CreateOutcome where
  result : Except Err (EncryptionKey × WrappingKey)
  readCalls : Nat
  wrappingKeyCalls : Nat
deriving Repr

/-- Root-key creation flow `createRootKey` (resource.go lines 294-321):
issue the create mutation; wait (budget 100 attempts, 20 ms) until the key
is visible; then fetch the public wrapping key material with a single
unretried call to `CreatePublicWrappingKey`. -/
def createRootKey (createResult : Except Err EncryptionKey)
    (reads : Nat → Except Err EncryptionKey)
    (wrappingKeyResult : Except Err WrappingKey) : CreateOutcome :=
  match createResult with
  | Except.error e => ⟨Except.error e, 0, 0⟩
  | Except.ok key =>
    let w := waitUntil 100 20 (fun i => createRootKeyCheck (reads i))
    match w.result with
    | some e => ⟨Except.error e, w.calls, 0⟩
    | none =>
      match wrappingKeyResult with
      | Except.error e => ⟨Except.error e, w.calls, 1⟩
      | Except.ok wk => ⟨Except.ok (key, wk), w.calls, 1⟩

/-- Sample key used by concrete witnesses. -/
def sampleKey (s : String) : EncryptionKey :=
  ⟨"key-1", "customer-provided-root-key", s, "", "", ""⟩

/-- Inputs that `updateEncryptionKeyManager`
(resource.go lines 154-212) draws from the Terraform state, plan and raw
config: whether the resource is new, whether `key_rotation_id` changed and
its value, whether `customer_provided_root_key` changed, the old and new
element count of that block, the stored `key_id`, `state` and
`public_wrapping_key` of the block, and the raw config's block
(`none` when the block is null or empty, otherwise the `wrapped_key`
attribute as an optional string, mirroring `value.String`). -/
structure UpdateInput where
  isNewResource : Bool
  hasChangeKeyRotation : Bool
  keyRotationID : String
  hasChangeRootKey : Bool
  oldCount : Nat
  newCount : Nat
  rootKeyID : String
  rootKeyState : String
  publicWrappingKey : String
  rootKeyConfig : Option (Option String)

/-- Remote behaviour visible to one run of the update flow: the outcome
of each mutation and the successive outcomes of each polling read. -/
structure RemoteEnv where
  rekeyResult : Option Err
  deleteResult : Option Err
  deleteReads : Nat → Except Err EncryptionKey
  importResult : Option Err
  importReads : Nat → Except Err EncryptionKey
  createResult : Except Err EncryptionKey
  createReads : Nat → Except Err EncryptionKey
  wrappingKeyResult : Except Err WrappingKey

/-- Outcome of the update flow: the error it returns (`none` when it
proceeds to the final read) and which remote operations were invoked. -/
structure UpdateOutcome where
  err : Option Err
  rekeyCalled : Bool
  removeCalled : Bool
  importCalled : Bool
  createCalled : Bool
deriving DecidableEq, Repr

/-- The message of the error returned when `wrapped_key` is supplied too
early (resource.go lines 194-195). -/
def wrappedKeyEarlyMessage : String :=
  "The wrapped_key attribute should not be specified in the customer_provided_root_key block until after the public_wrapping_key has been generated"

/-- The tail of the update flow (resource.go lines 199-207): when no root
key is in progress yet or the block is newly created, create a new root
key. -/
def updateCreateStep (env : RemoteEnv) (inp : UpdateInput)
    (rekeyCalled importCalled : Bool) : UpdateOutcome :=
  if inp.rootKeyID.length = 0 ∨ (inp.oldCount = 0 ∧ inp.newCount = 1) then
    match (createRootKey env.createResult env.createReads env.wrappingKeyResult).result with
    | Except.error e => ⟨some e, rekeyCalled, false, importCalled, true⟩
    | Except.ok _ => ⟨none, rekeyCalled, false, importCalled, true⟩
  else ⟨none, rekeyCalled, false, importCalled, false⟩

/-- Update flow `updateEncryptionKeyManager`
(resource.go lines 154-212): rotate the tenant keys when
`key_rotation_id` changed to a non-empty value; then, when the resource is
new or the `customer_provided_root_key` block changed, either remove the
key (block absent but a key recorded), import the wrapped key (supplied
with a pre-activation key and a wrapping key present), reject a
`wrapped_key` supplied before the wrapping key exists, and create a new
root key when none is in progress. -/
def updateEncryptionKeyManager (env : RemoteEnv) (inp : UpdateInput) : UpdateOutcome :=
  let rekeyCalled := !inp.isNewResource && inp.hasChangeKeyRotation
    && decide (0 < inp.keyRotationID.length)
  match (if rekeyCalled then env.rekeyResult else none) with
  | some e => ⟨some e, rekeyCalled, false, false, false⟩
  | none =>
    if inp.isNewResource || inp.hasChangeRootKey then
      match inp.rootKeyConfig with
      | none =>
        if 0 < inp.rootKeyID.length then
          ⟨(removeKey env.deleteResult env.deleteReads).result,
           rekeyCalled, true, false, false⟩
        else ⟨none, rekeyCalled, false, false, false⟩
      | some wrappedKey =>
        match wrappedKey with
        | some _ =>
          if 0 < inp.rootKeyID.length ∧ inp.rootKeyState = "pre-activation"
              ∧ 0 < inp.publicWrappingKey.length then
            match importWrappedKey env.importResult env.importReads with
            | some e => ⟨some e, rekeyCalled, false, true, false⟩
            | none => updateCreateStep env inp rekeyCalled true
          else if inp.rootKeyID.length = 0 ∨ inp.publicWrappingKey.length = 0 then
            ⟨some (Err.invalidConfig wrappedKeyEarlyMessage),
             rekeyCalled, false, false, false⟩
          else updateCreateStep env inp rekeyCalled false
        | none => updateCreateStep env inp rekeyCalled false
    else ⟨none, rekeyCalled, false, false, false⟩

/-- A benign remote environment used by concrete witnesses. -/
def sampleEnv : RemoteEnv where
  rekeyResult := none
  deleteResult := none
  deleteReads := fun _ => Except.ok (sampleKey "destroyed")
  importResult := none
  importReads := fun _ => Except.ok (sampleKey "active")
  createResult := Except.ok (sampleKey "pre-activation")
  createReads := fun _ => Except.ok (sampleKey "pre-activation")
  wrappingKeyResult := Except.ok ⟨"PEM-KEY", "CKM_RSA_AES_KEY_WRAP"⟩

/-- Modelled from the spec: the helper `getKeyByTypeAndState` used by
`readEncryptionKeyManager` (resource.go lines 233 and 237), whose
definition is absent from the available sources.  It looks up, among the
listed keys, the first key with the given `type` and `state`, or nothing
when no listed key matches. -/
def getKeyByTypeAndState (keyType keyState : String)
    (keys : List EncryptionKey) : Option EncryptionKey :=
  keys.find? (fun k => k.type == keyType && k.state == keyState)

/-- Root-key write-back portion of `readEncryptionKeyManager`
(resource.go lines 231-245): when the state records a
`customer_provided_root_key` block, first look for a
customer-provided-root-key going through activation (`pre-activation`),
then for an already `active` one; write the found key back, and when
neither exists leave the stored block unchanged.  `storedCount` is
`customer_provided_root_key.#` and `storedBlock` the block currently in
state; the returned value is the block after the read. -/
def readRootKeySelection (storedCount : Nat) (storedBlock : Option EncryptionKey)
    (keys : List EncryptionKey) : Option EncryptionKey :=
  if 0 < storedCount then
    match getKeyByTypeAndState "customer-provided-root-key" "pre-activation" keys with
    | some k => some k
    | none =>
      match getKeyByTypeAndState "customer-provided-root-key" "active" keys with
      | some k => some k
      | none => storedBlock
  else storedBlock

/-- Outcome of the delete flow: the returned error, whether the remote
delete mutation was invoked, and how many polling reads were made. -/
structure DeleteOutcome where
  err : Option Err
  deleteCalled : Bool
  pollReadCalls : Nat
deriving DecidableEq, Repr

/-- Delete flow `deleteEncryptionKeyManager`
(resource.go lines 250-259): when a `customer_provided_root_key.0.key_id`
is recorded, remove that key (delete then poll until destroyed);
otherwise do nothing and succeed. -/
def deleteEncryptionKeyManager (deleteResult : Option Err)
    (reads : Nat → Except Err EncryptionKey) (rootKeyID : String) : DeleteOutcome :=
  if 0 < rootKeyID.length then
    let r := removeKey deleteResult reads
    ⟨r.result, true, r.readCalls⟩
  else ⟨none, false, 0⟩

theorem waitUntilFrom_probe_err {check : Nat → Bool × Option Err}
    {idx n : Nat} {b : Bool} {e : Err} (h : check idx = (b, some e)) :
    waitUntilFrom check idx (n + 1) = ⟨some e, 1, 0⟩ := by
  simp only [waitUntilFrom, h]

theorem waitUntilFrom_done {check : Nat → Bool × Option Err}
    {idx n : Nat} (h : check idx = (true, none)) :
    waitUntilFrom check idx (n + 1) = ⟨none, 1, 0⟩ := by
  simp [waitUntilFrom, h]

theorem waitUntilFrom_last {check : Nat → Bool × Option Err}
    {idx : Nat} (h : check idx = (false, none)) :
    waitUntilFrom check idx 1 = ⟨some Err.waitTimeout, 1, 0⟩ := by
  simp [waitUntilFrom, h]

theorem waitUntilFrom_step {check : Nat → Bool × Option Err}
    {idx m : Nat} (h : check idx = (false, none)) :
    waitUntilFrom check idx (m + 2) =
      ⟨(waitUntilFrom check (idx + 1) (m + 1)).result,
       (waitUntilFrom check (idx + 1) (m + 1)).calls + 1,
       (waitUntilFrom check (idx + 1) (m + 1)).sleeps + 1⟩ := by
  conv_lhs => rw [waitUntilFrom]
  simp [h]

theorem waitUntilFrom_all_notyet (check : Nat → Bool × Option Err) :
    ∀ n idx, 1 ≤ n → (∀ i, i < n → check (idx + i) = (false, none)) →
    waitUntilFrom check idx n = ⟨some Err.waitTimeout, n, n - 1⟩ := by
  intro n
  induction n with
  | zero => intro idx h1 _; exact (Nat.not_succ_le_zero 0 h1).elim
  | succ m ih =>
    intro idx _ hall
    have h0 : check idx = (false, none) := by simpa using hall 0 (Nat.succ_pos m)
    cases m with
    | zero => simpa using waitUntilFrom_last h0
    | succ k =>
      rw [waitUntilFrom_step h0]
      have hrest := ih (idx + 1) (Nat.succ_le_succ (Nat.zero_le k)) (fun i hi => by
        have hIdx : idx + 1 + i = idx + (i + 1) := by omega
        rw [hIdx]
        exact hall (i + 1) (by omega))
      rw [hrest]
      simp

theorem waitUntilFrom_error_at (check : Nat → Bool × Option Err) :
    ∀ k n idx (e : Err), k < n →
    (∀ i, i < k → check (idx + i) = (false, none)) →
    (check (idx + k)).2 = some e →
    waitUntilFrom check idx n = ⟨some e, k + 1, k⟩ := by
  intro k
  induction k with
  | zero =>
    intro n idx e hk _ herr
    obtain ⟨m, rfl⟩ := Nat.exists_eq_succ_of_ne_zero (Nat.pos_iff_ne_zero.mp hk)
    have hck : check idx = ((check idx).1, some e) := by
      rw [← herr]; simp
    exact waitUntilFrom_probe_err hck
  | succ j ih =>
    intro n idx e hk hbefore herr
    obtain ⟨m, rfl⟩ := Nat.exists_eq_succ_of_ne_zero (by omega : n ≠ 0)
    obtain ⟨p, rfl⟩ := Nat.exists_eq_succ_of_ne_zero (by omega : m ≠ 0)
    have h0 : check idx = (false, none) := by simpa using hbefore 0 (Nat.succ_pos j)
    rw [show p.succ.succ = p + 2 from rfl, waitUntilFrom_step h0]
    have hrest := ih (p + 1) (idx + 1) e (by omega)
      (fun i hi => by
        have hIdx : idx + 1 + i = idx + (i + 1) := by omega
        rw [hIdx]
        exact hbefore (i + 1) (by omega))
      (by
        have hIdx : idx + 1 + j = idx + (j + 1) := by omega
        rw [hIdx]
        exact herr)
    rw [hrest]

/-- C3: if `check` returns done=false with no error on each of its first
`maxAttempts` invocations, `waitUntil` invokes `check` exactly
`maxAttempts` times and returns the dedicated timeout error, which is
distinct from any error produced by `check` during the run. -/
theorem waitUntil_timeout_after_budget (maxAttempts intervalMillis : Nat)
    (check : Nat → Bool × Option Err) (hmax : 1 ≤ maxAttempts)
    (hall : ∀ i, i < maxAttempts → check i = (false, none)) :
    (waitUntil maxAttempts intervalMillis check).result = some Err.waitTimeout ∧
    (waitUntil maxAttempts intervalMillis check).calls = maxAttempts ∧
    (∀ i, i < maxAttempts → (check i).2 ≠ some Err.waitTimeout) := by
  have h := waitUntilFrom_all_notyet check maxAttempts 0 hmax
    (fun i hi => by simpa using hall i hi)
  unfold waitUntil
  rw [h]
  refine ⟨rfl, rfl, fun i hi hcontra => ?_⟩
  rw [hall i hi] at hcontra
  simp at hcontra

/-- Witness for C3 at `maxAttempts = 3`. -/
theorem waitUntil_timeout_after_budget_witness :
    (waitUntil 3 10 (fun _ => (false, none))).result = some Err.waitTimeout ∧
    (waitUntil 3 10 (fun _ => (false, none))).calls = 3 ∧
    (∀ i, i < 3 → ((fun (_ : Nat) => ((false : Bool), (none : Option Err))) i).2 ≠ some Err.waitTimeout) :=
  waitUntil_timeout_after_budget 3 10 (fun _ => (false, none)) (by decide)
    (fun _ _ => rfl)

/-- C4: if `check` returns done=false with no error on its first `k`
invocations and a non-nil error `e` on invocation `k` (0-based), then
`waitUntil` returns exactly that error and invokes `check` exactly `k + 1`
times, so no invocation follows the erroring one. -/
theorem waitUntil_error_aborts (maxAttempts intervalMillis k : Nat)
    (check : Nat → Bool × Option Err) (e : Err) (hk : k < maxAttempts)
    (hbefore : ∀ i, i < k → check i = (false, none))
    (herr : (check k).2 = some e) :
    (waitUntil maxAttempts intervalMillis check).result = some e ∧
    (waitUntil maxAttempts intervalMillis check).calls = k + 1 := by
  have h := waitUntilFrom_error_at check k maxAttempts 0 e hk
    (fun i hi => by simpa using hbefore i hi) (by simpa using herr)
  unfold waitUntil
  rw [h]
  exact ⟨rfl, rfl⟩

/-- Witness for C4: the probe errs on its second invocation (index 1)
within a budget of 5 attempts; the error comes back verbatim after exactly
2 calls. -/
theorem waitUntil_error_aborts_witness :
    (waitUntil 5 10 (fun i => if i = 0 then (false, none)
      else (false, some (Err.api "boom")))).result = some (Err.api "boom") ∧
    (waitUntil 5 10 (fun i => if i = 0 then (false, none)
      else (false, some (Err.api "boom")))).calls = 1 + 1 :=
  waitUntil_error_aborts 5 10 1 _ (Err.api "boom") (by decide)
    (fun i hi => by have h0 : i = 0 := by omega
                    subst h0; rfl) (by rfl)

/-- C5: if `check` reports done on its first invocation, `waitUntil`
returns success after exactly one invocation and no sleep, for any
`maxAttempts ≥ 1` and any interval; in particular `maxAttempts = 1`
performs exactly one check and no sleep. -/
theorem waitUntil_immediate_success (maxAttempts intervalMillis : Nat)
    (check : Nat → Bool × Option Err) (hmax : 1 ≤ maxAttempts)
    (h0 : check 0 = (true, none)) :
    (waitUntil maxAttempts intervalMillis check).result = none ∧
    (waitUntil maxAttempts intervalMillis check).calls = 1 ∧
    (waitUntil maxAttempts intervalMillis check).sleeps = 0 := by
  obtain ⟨m, rfl⟩ := Nat.exists_eq_succ_of_ne_zero (by omega : maxAttempts ≠ 0)
  unfold waitUntil
  rw [waitUntilFrom_done h0]
  exact ⟨rfl, rfl, rfl⟩

/-- Witness for C5 at `maxAttempts = 1` and at `maxAttempts = 7`. -/
theorem waitUntil_immediate_success_witness :
    ((waitUntil 1 0 (fun _ => (true, none))).result = none ∧
     (waitUntil 1 0 (fun _ => (true, none))).calls = 1 ∧
     (waitUntil 1 0 (fun _ => (true, none))).sleeps = 0) ∧
    ((waitUntil 7 25 (fun _ => (true, none))).result = none ∧
     (waitUntil 7 25 (fun _ => (true, none))).calls = 1 ∧
     (waitUntil 7 25 (fun _ => (true, none))).sleeps = 0) :=
  ⟨waitUntil_immediate_success 1 0 _ (by decide) rfl,
   waitUntil_immediate_success 7 25 _ (by decide) rfl⟩

/-- C1 counterexample: in the key-deletion flow a not-found read error
does not make the probe report done; it is returned as the probe error,
so the wait aborts instead of succeeding. -/
theorem removeKey_notFound_counterexample :
    removeKeyCheck (Except.error Err.notFound) = (false, some Err.notFound) ∧
    (removeKey none (fun _ => Except.error Err.notFound)).result = some Err.notFound ∧
    (removeKey none (fun _ => Except.error Err.notFound)).result ≠ none := by
  refine ⟨rfl, rfl, ?_⟩
  intro h
  rw [show (removeKey none (fun _ => Except.error Err.notFound)).result
      = some Err.notFound from rfl] at h
  exact Option.noConfusion h

/-- C1 (amended): in the key-deletion flow the probe reports done exactly
when the read succeeds and the returned key's state equals `destroyed`;
any read error, a not-found error included, is returned as a probe error
and aborts the wait with that error. -/
theorem removeKey_probe_spec (r : Except Err EncryptionKey)
    (reads : Nat → Except Err EncryptionKey) :
    ((removeKeyCheck r).1 = true ↔ ∃ k, r = Except.ok k ∧ k.state = "destroyed") ∧
    (∀ e, r = Except.error e → removeKeyCheck r = (false, some e)) ∧
    (∀ e, reads 0 = Except.error e → (removeKey none reads).result = some e) := by
  refine ⟨?_, ?_, ?_⟩
  · cases r with
    | error e => simp [removeKeyCheck]
    | ok k => simp [removeKeyCheck]
  · intro e he
    subst he
    rfl
  · intro e he
    have hc : (fun i => removeKeyCheck (reads i)) 0
        = (false, some e) := by simp [he, removeKeyCheck]
    show (waitUntil 100 20 (fun i => removeKeyCheck (reads i))).result = some e
    unfold waitUntil
    rw [show (100 : Nat) = 99 + 1 from rfl, waitUntilFrom_probe_err hc]

/-- Witness for the amended C1, at a non-not-found read error. -/
theorem removeKey_probe_spec_witness :
    removeKeyCheck (Except.error (Err.api "down")) = (false, some (Err.api "down")) ∧
    (removeKey none (fun _ => Except.error (Err.api "down"))).result
      = some (Err.api "down") :=
  ⟨(removeKey_probe_spec (Except.error (Err.api "down"))
      (fun _ => Except.error (Err.api "down"))).2.1 _ rfl,
   (removeKey_probe_spec (Except.error (Err.api "down"))
      (fun _ => Except.error (Err.api "down"))).2.2 _ rfl⟩

theorem waitUntilFrom_three {check : Nat → Bool × Option Err} (idx n : Nat)
    (h0 : check idx = (false, none)) (h1 : check (idx + 1) = (false, none))
    (h2 : check (idx + 2) = (true, none)) :
    waitUntilFrom check idx (n + 3) = ⟨none, 3, 2⟩ := by
  rw [show n + 3 = (n + 1) + 2 from rfl, waitUntilFrom_step h0,
      waitUntilFrom_step h1]
  rw [show idx + 1 + 1 = idx + 2 from rfl, waitUntilFrom_done h2]

/-- C2: in the root-key creation flow the probe treats a not-found read
error as not-yet-done with no probe error (polling continues), any other
read error as fatal (the wait aborts with exactly that error), and reports
done as soon as the read succeeds; with reads not-found, not-found,
success, the wait succeeds on the third call. -/
theorem createRootKey_poll_spec (reads : Nat → Except Err EncryptionKey)
    (key : EncryptionKey)
    (h0 : reads 0 = Except.error Err.notFound)
    (h1 : reads 1 = Except.error Err.notFound)
    (h2 : reads 2 = Except.ok key) :
    (∀ e, isStatusNotFound e = true →
      createRootKeyCheck (Except.error e) = (false, none)) ∧
    (∀ e, isStatusNotFound e = false →
      createRootKeyCheck (Except.error e) = (false, some e)) ∧
    (∀ k, createRootKeyCheck (Except.ok k) = (true, none)) ∧
    (∀ (reads2 : Nat → Except Err EncryptionKey) e, isStatusNotFound e = false →
      reads2 0 = Except.error e →
      (waitUntil 100 20 (fun i => createRootKeyCheck (reads2 i))).result = some e) ∧
    (waitUntil 100 20 (fun i => createRootKeyCheck (reads i))).result = none ∧
    (waitUntil 100 20 (fun i => createRootKeyCheck (reads i))).calls = 3 := by
  have hrun : waitUntilFrom (fun i => createRootKeyCheck (reads i)) 0 100
      = ⟨none, 3, 2⟩ := by
    have hc0 : (fun i => createRootKeyCheck (reads i)) 0 = (false, none) := by
      simp [h0, createRootKeyCheck, isStatusNotFound]
    have hc1 : (fun i => createRootKeyCheck (reads i)) (0 + 1) = (false, none) := by
      simp [h1, createRootKeyCheck, isStatusNotFound]
    have hc2 : (fun i => createRootKeyCheck (reads i)) (0 + 2) = (true, none) := by
      simp [h2, createRootKeyCheck]
    rw [show (100 : Nat) = 97 + 3 from rfl]
    exact waitUntilFrom_three 0 97 hc0 hc1 hc2
  refine ⟨?_, ?_, ?_, ?_, ?_, ?_⟩
  · intro e he
    simp [createRootKeyCheck, he]
  · intro e he
    simp [createRootKeyCheck, he]
  · intro k
    rfl
  · intro reads2 e he hr
    have hc : (fun i => createRootKeyCheck (reads2 i)) 0 = (false, some e) := by
      simp [hr, createRootKeyCheck, he]
    unfold waitUntil
    rw [show (100 : Nat) = 99 + 1 from rfl, waitUntilFrom_probe_err hc]
  · unfold waitUntil
    rw [hrun]
  · unfold waitUntil
    rw [hrun]

/-- Witness for C2: not-found on the first two reads, success on the
third. -/
theorem createRootKey_poll_spec_witness :
    (waitUntil 100 20 (fun i => createRootKeyCheck
      ((fun j => match j with
        | 0 => Except.error Err.notFound
        | 1 => Except.error Err.notFound
        | _ => Except.ok (sampleKey "pre-activation")) i))).result = none ∧
    (waitUntil 100 20 (fun i => createRootKeyCheck
      ((fun j => match j with
        | 0 => Except.error Err.notFound
        | 1 => Except.error Err.notFound
        | _ => Except.ok (sampleKey "pre-activation")) i))).calls = 3 ∧
    createRootKeyCheck (Except.error (Err.api "denied"))
      = (false, some (Err.api "denied")) := by
  have h := createRootKey_poll_spec
    (fun j => match j with
      | 0 => Except.error Err.notFound
      | 1 => Except.error Err.notFound
      | _ => Except.ok (sampleKey "pre-activation"))
    (sampleKey "pre-activation") rfl rfl rfl
  exact ⟨h.2.2.2.2.1, h.2.2.2.2.2, h.2.1 (Err.api "denied") rfl⟩

/-- C6: in the wrapped-key import flow, after the import mutation
succeeds, the probe reports done exactly when the read succeeds and the
returned key's state equals `active`; a read error during the polling
aborts the wait with that error, and an immediately-active key makes the
wait succeed. -/
theorem importWrappedKey_poll_spec (r : Except Err EncryptionKey)
    (reads : Nat → Except Err EncryptionKey) :
    ((importWrappedKeyCheck r).1 = true ↔
      ∃ k, r = Except.ok k ∧ k.state = "active") ∧
    (∀ e, r = Except.error e → importWrappedKeyCheck r = (false, some e)) ∧
    (∀ e, reads 0 = Except.error e → importWrappedKey none reads = some e) ∧
    (∀ k, reads 0 = Except.ok k → k.state = "active" →
      importWrappedKey none reads = none) := by
  refine ⟨?_, ?_, ?_, ?_⟩
  · cases r with
    | error e => simp [importWrappedKeyCheck]
    | ok k => simp [importWrappedKeyCheck]
  · intro e he
    subst he
    rfl
  · intro e he
    have hc : (fun i => importWrappedKeyCheck (reads i)) 0
        = (false, some e) := by simp [he, importWrappedKeyCheck]
    show (waitUntil 100 20 (fun i => importWrappedKeyCheck (reads i))).result = some e
    unfold waitUntil
    rw [show (100 : Nat) = 99 + 1 from rfl, waitUntilFrom_probe_err hc]
  · intro k hk hstate
    have hc : (fun i => importWrappedKeyCheck (reads i)) 0
        = (true, none) := by simp [hk, importWrappedKeyCheck, hstate]
    show (waitUntil 100 20 (fun i => importWrappedKeyCheck (reads i))).result = none
    unfold waitUntil
    rw [show (100 : Nat) = 99 + 1 from rfl, waitUntilFrom_done hc]

/-- Witness for C6: a read error aborts with that error; a read of an
active key succeeds. -/
theorem importWrappedKey_poll_spec_witness :
    importWrappedKeyCheck (Except.error (Err.api "conn-reset"))
      = (false, some (Err.api "conn-reset")) ∧
    importWrappedKey none (fun _ => Except.error (Err.api "conn-reset"))
      = some (Err.api "conn-reset") ∧
    importWrappedKey none (fun _ => Except.ok (sampleKey "active")) = none :=
  ⟨(importWrappedKey_poll_spec (Except.error (Err.api "conn-reset"))
      (fun _ => Except.error (Err.api "conn-reset"))).2.1 _ rfl,
   (importWrappedKey_poll_spec (Except.error (Err.api "conn-reset"))
      (fun _ => Except.error (Err.api "conn-reset"))).2.2.1 _ rfl,
   (importWrappedKey_poll_spec (Except.ok (sampleKey "active"))
      (fun _ => Except.ok (sampleKey "active"))).2.2.2 _ rfl rfl⟩

/-- C7: in the root-key creation flow, once the creation-visibility poll
has succeeded, the public wrapping key material is fetched by exactly one
call, and if that single fetch fails its error is returned without any
retry (the call count stays 1). -/
theorem createRootKey_wrapping_once (key : EncryptionKey)
    (reads : Nat → Except Err EncryptionKey)
    (wres : Except Err WrappingKey)
    (hpoll : (waitUntil 100 20 (fun i => createRootKeyCheck (reads i))).result
      = none) :
    (createRootKey (Except.ok key) reads wres).wrappingKeyCalls = 1 ∧
    (∀ e, wres = Except.error e →
      (createRootKey (Except.ok key) reads wres).result = Except.error e ∧
      (createRootKey (Except.ok key) reads wres).wrappingKeyCalls = 1) := by
  cases wres with
  | error e => exact ⟨by simp [createRootKey, hpoll],
      fun e' he' => by
        obtain rfl : e = e' := Except.error.inj he'
        exact ⟨by simp [createRootKey, hpoll], by simp [createRootKey, hpoll]⟩⟩
  | ok wk => exact ⟨by simp [createRootKey, hpoll],
      fun e' he' => by exact absurd he' (by simp)⟩

/-- Witness for C7: a visible key on the first read and a failing wrapping
fetch; the fetch's error comes back and exactly one fetch is made. -/
theorem createRootKey_wrapping_once_witness :
    (createRootKey (Except.ok (sampleKey "pre-activation"))
      (fun _ => Except.ok (sampleKey "pre-activation"))
      (Except.error (Err.api "wrap-fail"))).wrappingKeyCalls = 1 ∧
    (createRootKey (Except.ok (sampleKey "pre-activation"))
      (fun _ => Except.ok (sampleKey "pre-activation"))
      (Except.error (Err.api "wrap-fail"))).result
        = Except.error (Err.api "wrap-fail") := by
  have h := createRootKey_wrapping_once (sampleKey "pre-activation")
    (fun _ => Except.ok (sampleKey "pre-activation"))
    (Except.error (Err.api "wrap-fail")) rfl
  exact ⟨h.1, (h.2 _ rfl).1⟩

/-- C8: during update, a `wrapped_key` supplied while the stored `key_id`
or the stored `public_wrapping_key` is empty makes the flow return the
too-early configuration error, and no import-wrapped-key call is made. -/
theorem update_wrapped_key_too_early (env : RemoteEnv) (inp : UpdateInput)
    (wk : String)
    (hcfg : inp.rootKeyConfig = some (some wk))
    (hbranch : (inp.isNewResource || inp.hasChangeRootKey) = true)
    (hrekey : env.rekeyResult = none)
    (hempty : inp.rootKeyID = "" ∨ inp.publicWrappingKey = "") :
    (updateEncryptionKeyManager env inp).err
      = some (Err.invalidConfig wrappedKeyEarlyMessage) ∧
    (updateEncryptionKeyManager env inp).importCalled = false := by
  have hfirst : ¬(0 < inp.rootKeyID.length ∧ inp.rootKeyState = "pre-activation"
      ∧ 0 < inp.publicWrappingKey.length) := by
    rcases hempty with h | h <;> simp [h]
  have hsecond : inp.rootKeyID.length = 0 ∨ inp.publicWrappingKey.length = 0 := by
    rcases hempty with h | h
    · exact Or.inl (by simp [h])
    · exact Or.inr (by simp [h])
  constructor <;>
    simp [updateEncryptionKeyManager, hrekey, hbranch, hcfg, hfirst, hsecond]

/-- Witness for C8: empty stored key id, wrapped key supplied in config. -/
theorem update_wrapped_key_too_early_witness :
    (updateEncryptionKeyManager sampleEnv
      ⟨false, false, "", true, 1, 1, "", "", "", some (some "d2FwcGVk")⟩).err
        = some (Err.invalidConfig wrappedKeyEarlyMessage) ∧
    (updateEncryptionKeyManager sampleEnv
      ⟨false, false, "", true, 1, 1, "", "", "", some (some "d2FwcGVk")⟩).importCalled
        = false :=
  update_wrapped_key_too_early sampleEnv
    ⟨false, false, "", true, 1, 1, "", "", "", some (some "d2FwcGVk")⟩
    "d2FwcGVk" rfl rfl rfl (Or.inl rfl)

theorem getKeyByTypeAndState_eq_some {t s : String} {keys : List EncryptionKey}
    {k : EncryptionKey} (h : getKeyByTypeAndState t s keys = some k) :
    k ∈ keys ∧ k.type = t ∧ k.state = s := by
  unfold getKeyByTypeAndState at h
  have hmem := List.mem_of_find?_eq_some h
  have hp := List.find?_some h
  simp only [Bool.and_eq_true, beq_iff_eq] at hp
  exact ⟨hmem, hp.1, hp.2⟩

theorem getKeyByTypeAndState_of_exists {t s : String} {keys : List EncryptionKey}
    (h : ∃ k ∈ keys, k.type = t ∧ k.state = s) :
    ∃ k, getKeyByTypeAndState t s keys = some k := by
  unfold getKeyByTypeAndState
  obtain ⟨k, hk, ht, hs⟩ := h
  have hsome : (keys.find? (fun k => k.type == t && k.state == s)).isSome := by
    rw [List.find?_isSome]
    exact ⟨k, hk, by simp [ht, hs]⟩
  exact Option.isSome_iff_exists.mp hsome

theorem getKeyByTypeAndState_eq_none {t s : String} {keys : List EncryptionKey}
    (h : ∀ k ∈ keys, ¬(k.type = t ∧ k.state = s)) :
    getKeyByTypeAndState t s keys = none := by
  unfold getKeyByTypeAndState
  rw [List.find?_eq_none]
  intro k hk
  simpa using h k hk

/-- C9: during read with a recorded `customer_provided_root_key` block,
the key written back is a listed customer-provided-root-key in state
`pre-activation` when one exists, otherwise a listed one in state
`active` when one exists, and when neither exists the stored block is
left unchanged rather than cleared. -/
theorem read_root_key_selection_spec (storedCount : Nat)
    (stored : Option EncryptionKey) (keys : List EncryptionKey)
    (hcnt : 0 < storedCount) :
    ((∃ k ∈ keys, k.type = "customer-provided-root-key"
        ∧ k.state = "pre-activation") →
      ∃ k, readRootKeySelection storedCount stored keys = some k ∧ k ∈ keys ∧
        k.type = "customer-provided-root-key" ∧ k.state = "pre-activation") ∧
    ((∀ k ∈ keys, ¬(k.type = "customer-provided-root-key"
        ∧ k.state = "pre-activation")) →
     (∃ k ∈ keys, k.type = "customer-provided-root-key" ∧ k.state = "active") →
      ∃ k, readRootKeySelection storedCount stored keys = some k ∧ k ∈ keys ∧
        k.type = "customer-provided-root-key" ∧ k.state = "active") ∧
    ((∀ k ∈ keys, ¬(k.type = "customer-provided-root-key"
        ∧ (k.state = "pre-activation" ∨ k.state = "active"))) →
      readRootKeySelection storedCount stored keys = stored) := by
  refine ⟨?_, ?_, ?_⟩
  · intro hex
    obtain ⟨k, hk⟩ := getKeyByTypeAndState_of_exists hex
    obtain ⟨hmem, ht, hs⟩ := getKeyByTypeAndState_eq_some hk
    exact ⟨k, by simp [readRootKeySelection, hcnt, hk], hmem, ht, hs⟩
  · intro hnone hex
    have h1 : getKeyByTypeAndState "customer-provided-root-key" "pre-activation" keys
        = none := getKeyByTypeAndState_eq_none hnone
    obtain ⟨k, hk⟩ := getKeyByTypeAndState_of_exists hex
    obtain ⟨hmem, ht, hs⟩ := getKeyByTypeAndState_eq_some hk
    exact ⟨k, by simp [readRootKeySelection, hcnt, h1, hk], hmem, ht, hs⟩
  · intro hnone
    have h1 : getKeyByTypeAndState "customer-provided-root-key" "pre-activation" keys
        = none := getKeyByTypeAndState_eq_none (fun k hk hc =>
          hnone k hk ⟨hc.1, Or.inl hc.2⟩)
    have h2 : getKeyByTypeAndState "customer-provided-root-key" "active" keys
        = none := getKeyByTypeAndState_eq_none (fun k hk hc =>
          hnone k hk ⟨hc.1, Or.inr hc.2⟩)
    simp [readRootKeySelection, hcnt, h1, h2]

/-- Witness for C9: the pre-activation key is preferred even when listed
after an active key, and an empty listing leaves the stored block. -/
theorem read_root_key_selection_spec_witness :
    (∃ k, readRootKeySelection 1 none
        [sampleKey "active", sampleKey "pre-activation"] = some k ∧
      k ∈ [sampleKey "active", sampleKey "pre-activation"] ∧
      k.type = "customer-provided-root-key" ∧ k.state = "pre-activation") ∧
    readRootKeySelection 1 (some (sampleKey "destroyed")) []
      = some (sampleKey "destroyed") := by
  have h1 := read_root_key_selection_spec 1 none
    [sampleKey "active", sampleKey "pre-activation"] (by decide)
  have h2 := read_root_key_selection_spec 1 (some (sampleKey "destroyed")) []
    (by decide)
  exact ⟨h1.1 ⟨sampleKey "pre-activation", by simp, rfl, rfl⟩,
    h2.2.2 (by simp)⟩

/-- C10: deleting the resource with an empty stored `key_id` performs no
remote delete and no polling and returns success, so the remote key set
is untouched; and the delete-and-poll path runs only when a non-empty
`key_id` is recorded. -/
theorem delete_noop_when_no_key (deleteResult : Option Err)
    (reads : Nat → Except Err EncryptionKey) (rootKeyID : String)
    (h : rootKeyID = "") :
    (deleteEncryptionKeyManager deleteResult reads rootKeyID).err = none ∧
    (deleteEncryptionKeyManager deleteResult reads rootKeyID).deleteCalled = false ∧
    (deleteEncryptionKeyManager deleteResult reads rootKeyID).pollReadCalls = 0 ∧
    (∀ (dr : Option Err) (rd : Nat → Except Err EncryptionKey) (kid : String),
      (deleteEncryptionKeyManager dr rd kid).deleteCalled = true → kid ≠ "") := by
  subst h
  refine ⟨by simp [deleteEncryptionKeyManager],
    by simp [deleteEncryptionKeyManager],
    by simp [deleteEncryptionKeyManager], ?_⟩
  intro dr rd kid hcall hkid
  subst hkid
  simp [deleteEncryptionKeyManager] at hcall

/-- Witness for C10 at an empty key id. -/
theorem delete_noop_when_no_key_witness :
    (deleteEncryptionKeyManager none
      (fun _ => Except.ok (sampleKey "destroyed")) "").err = none ∧
    (deleteEncryptionKeyManager none
      (fun _ => Except.ok (sampleKey "destroyed")) "").deleteCalled = false ∧
    (deleteEncryptionKeyManager none
      (fun _ => Except.ok (sampleKey "destroyed")) "").pollReadCalls = 0 ∧
    (∀ (dr : Option Err) (rd : Nat → Except Err EncryptionKey) (kid : String),
      (deleteEncryptionKeyManager dr rd kid).deleteCalled = true → kid ≠ "") :=
  delete_noop_when_no_key none (fun _ => Except.ok (sampleKey "destroyed")) "" rfl
